import Mathlib

/-!
Verification of the netmap shared data model (`sys/net/netmap.h`).

The header defines the structures shared between the kernel and a
userspace consumer: `netmap_slot`, `netmap_ring`, `netmap_if`, the
request structure `nmreq`, and documents the kernel-private
`netmap_kring` bookkeeping (`nr_hwcur`, `nr_hwavail`) together with the
reconciliation performed by the NIOCTXSYNC / NIOCRXSYNC ioctls.
Machine integers are embedded as `Nat` (with an explicit `% 2^w` where a
store into a fixed-width field matters) and signed offsets as `Int`.
The ioctl bodies themselves are not part of this header; those
operations are modelled from the specification, as indicated on each
definition.
-/

namespace Netmap

/-! Flag constants, copied from the header. -/

def NS_BUF_CHANGED : Nat := 0x0001
def NS_REPORT : Nat := 0x0002
def NS_FORWARD : Nat := 0x0004
def NS_NO_LEARN : Nat := 0x0008
def NS_INDIRECT : Nat := 0x0010
def NS_MOREFRAG : Nat := 0x0020
def NS_PORT_SHIFT : Nat := 8
def NS_PORT_MASK : Nat := 0xff <<< NS_PORT_SHIFT

def NR_TIMESTAMP : Nat := 0x0002
def NR_FORWARD : Nat := 0x0004
def NR_RX_TSTMP : Nat := 0x0008

def NETMAP_API : Nat := 4
def NETMAP_HW_RING : Nat := 0x4000
def NETMAP_SW_RING : Nat := 0x2000
def NETMAP_NO_TX_POLL : Nat := 0x1000
def NETMAP_RING_MASK : Nat := 0xfff

def NETMAP_BDG_ATTACH : Nat := 1
def NETMAP_BDG_DETACH : Nat := 2
def NETMAP_BDG_HOST : Nat := 1
def NETMAP_PERSIST : Nat := 0x1

/-- struct netmap_slot: buffer index (uint32_t), payload length
(uint16_t) and flags (uint16_t). -/
structure netmap_slot where
  buf_idx : Nat
  len : Nat
  flags : Nat
deriving Repr, DecidableEq

/-- Well-formedness of a slot: each field fits its C width. -/
def slot_wf (s : netmap_slot) : Prop :=
  s.buf_idx < 2 ^ 32 ∧ s.len < 2 ^ 16 ∧ s.flags < 2 ^ 16

/-- Storing a payload length into the uint16_t `len` field truncates
modulo 2^16, as the field is 16 bits wide. -/
def slot_set_len (s : netmap_slot) (v : Nat) : netmap_slot :=
  { s with len := v % 2 ^ 16 }

/-- struct timeval, as used for the `ts` field of the ring. -/
structure timeval where
  tv_sec : Int
  tv_usec : Int
deriving Repr, DecidableEq

/-- struct netmap_ring: the userspace-visible replica of a NIC ring.
`buf_ofs` is a byte offset (ssize_t) of the buffer region from the ring
itself; the slot array follows the fixed header. -/
structure netmap_ring where
  buf_ofs : Int
  num_slots : Nat
  avail : Nat
  cur : Nat
  reserved : Nat
  nr_buf_size : Nat
  flags : Nat
  ts : timeval
  slot : List netmap_slot
deriving Repr, DecidableEq

/-- struct netmap_kring (kernel private, documented in the header):
the shared ring plus the kernel's own `nr_hwcur` and `nr_hwavail`.
`nr_hwavail` is signed: the header states it is -1 when the transmit
side is idle. -/
structure netmap_kring where
  ring : netmap_ring
  nr_hwcur : Nat
  nr_hwavail : Int
deriving Repr, DecidableEq

/-- struct netmap_if: per-file-descriptor interface descriptor with the
trailing `ring_ofs` offset table. -/
structure netmap_if where
  ni_name : String
  ni_version : Nat
  ni_rx_rings : Nat
  ni_tx_rings : Nat
  ring_ofs : List Int
deriving Repr, DecidableEq

/-- struct nmreq: the argument of NIOCGINFO / NIOCREGIF. -/
structure nmreq where
  nr_name : String
  nr_version : Nat
  nr_offset : Nat
  nr_memsize : Nat
  nr_tx_slots : Nat
  nr_rx_slots : Nat
  nr_tx_rings : Nat
  nr_rx_rings : Nat
  nr_ringid : Nat
  nr_cmd : Nat
  nr_arg1 : Nat
  nr_arg2 : Nat
deriving Repr, DecidableEq

/-- Buffer address resolution. Modelled from the spec: in user space the
buffer bound to slot `index` lives at
`(char *)ring + buf_ofs + index * NETMAP_BUF_SIZE`; the shared region
holds only offsets, never absolute pointers. `ring_base` is the address
at which the ring happens to be mapped in the current address space. -/
def NETMAP_BUF (ring_base : Int) (r : netmap_ring) (index : Nat) : Int :=
  ring_base + r.buf_ofs + (index : Int) * (r.nr_buf_size : Int)

/-- Errors raised by the data-plane sync ioctls. -/
inductive SyncError where
  | invalidCursor
deriving Repr, DecidableEq

/-- Errors raised by the control-plane ioctls. -/
inductive CtlError where
  | unknownAttachment
  | alreadyRegistered
  | notRegistered
  | resourceExhausted
  | unsupportedVersion
  | invalidState
deriving Repr, DecidableEq

/-- The idle sentinel: the header states that `nr_hwavail` is -1 when
the transmit side is idle (no pending transmits). -/
def tx_idle_sentinel : Int := -1

/-- Circular advance presented by the consumer: the distance from the
kernel's `nr_hwcur` to the consumer's `cur`, modulo `num_slots`. -/
def ring_delta (kr : netmap_kring) : Nat :=
  (kr.ring.cur + kr.ring.num_slots - kr.nr_hwcur) % kr.ring.num_slots

/-- Effective transmit free capacity known to the kernel: the idle
sentinel means nothing is pending, i.e. all `num_slots` slots are free;
otherwise `nr_hwavail` itself is the count of free slots. -/
def tx_free (kr : netmap_kring) : Nat :=
  if kr.nr_hwavail < 0 then kr.ring.num_slots else kr.nr_hwavail.toNat

/-- Canonical stored form of the transmit `nr_hwavail`: a free capacity
equal to the whole ring (nothing pending) is stored as the idle
sentinel, any other capacity is stored as itself. -/
def canon_hwavail (free n : Nat) : Int :=
  if free = n then tx_idle_sentinel else (free : Int)

/-- Pending transmits: slots handed to the hardware and not yet
completed. -/
def tx_pending (kr : netmap_kring) : Nat :=
  kr.ring.num_slots - tx_free kr

/-- Modelled from the spec: the kernel side of NIOCTXSYNC (the ioctl
body is not part of this header). It validates that `cur` is in range
and that the advance since `nr_hwcur` does not exceed the free capacity
(an out-of-range or regressing `cur` is rejected as invalid); on
success it copies `cur` into `nr_hwcur`, decreases `nr_hwavail` by the
advance (storing the idle sentinel when nothing remains pending), and
only then publishes the recomputed free capacity as the consumer
visible `avail`. -/
def txsync (kr : netmap_kring) : Except SyncError netmap_kring :=
  if kr.ring.num_slots ≤ kr.ring.cur then
    Except.error SyncError.invalidCursor
  else if tx_free kr < ring_delta kr then
    Except.error SyncError.invalidCursor
  else
    Except.ok
      { ring := { kr.ring with avail := tx_free kr - ring_delta kr },
        nr_hwcur := kr.ring.cur,
        nr_hwavail := canon_hwavail (tx_free kr - ring_delta kr) kr.ring.num_slots }

/-- Modelled from the spec: the NIOCTXSYNC ioctl as a state transition:
on failure the kring (and with it the shared ring) is returned exactly
as the consumer last left it. -/
def NIOCTXSYNC (kr : netmap_kring) : netmap_kring × Option SyncError :=
  match txsync kr with
  | Except.ok kr' => (kr', none)
  | Except.error e => (kr, some e)

/-- Modelled from the spec: the transmit completion interrupt path
increments the free capacity by the number of packets the hardware has
sent, and stores the idle sentinel once nothing remains pending. -/
def tx_intr (kr : netmap_kring) (sent : Nat) : netmap_kring :=
  { kr with nr_hwavail :=
      canon_hwavail (min (tx_free kr + sent) kr.ring.num_slots) kr.ring.num_slots }

/-- Slot indices released back to the hardware receive path by one
receive sync: the span from the old `nr_hwcur` to the new `cur` minus
the `reserved` slots immediately before `cur`, which stay with the
consumer. -/
def rx_release_list (kr : netmap_kring) : List Nat :=
  (List.range (ring_delta kr - kr.ring.reserved)).map
    (fun i => (kr.nr_hwcur + i) % kr.ring.num_slots)

/-- The reserved window: the `reserved` slot indices in
`[cur - reserved, cur)` taken modulo `num_slots`. -/
def rx_reserved_window (kr : netmap_kring) : List Nat :=
  (List.range kr.ring.reserved).map
    (fun j => (kr.ring.cur + kr.ring.num_slots - 1 - j) % kr.ring.num_slots)

/-- Modelled from the spec: the kernel side of NIOCRXSYNC (the ioctl
body is not part of this header). It validates `cur`, releases the
slots between the old `nr_hwcur` and the new `cur` back to the hardware
except those still covered by `reserved` (the returned list is the set
of released slot indices), sets `nr_hwcur` to the new `cur`, decreases
`nr_hwavail` by the consumed count and republishes `avail`. -/
def rxsync (kr : netmap_kring) : Except SyncError (netmap_kring × List Nat) :=
  if kr.ring.num_slots ≤ kr.ring.cur then
    Except.error SyncError.invalidCursor
  else if kr.nr_hwavail < (ring_delta kr : Int) then
    Except.error SyncError.invalidCursor
  else
    Except.ok
      ({ ring := { kr.ring with avail := (kr.nr_hwavail - (ring_delta kr : Int)).toNat },
         nr_hwcur := kr.ring.cur,
         nr_hwavail := kr.nr_hwavail - (ring_delta kr : Int) },
       rx_release_list kr)

/-- Modelled from the spec: the NIOCRXSYNC ioctl as a state transition:
on failure the kring is unchanged and no slot is released. -/
def NIOCRXSYNC (kr : netmap_kring) :
    (netmap_kring × List Nat) × Option SyncError :=
  match rxsync kr with
  | Except.ok out => (out, none)
  | Except.error e => ((kr, []), some e)

/-- Slot carries the NS_MOREFRAG flag: the slot is a non-final segment
of a multi-segment frame. -/
def has_morefrag (s : netmap_slot) : Bool :=
  s.flags &&& NS_MOREFRAG != 0

/-- Modelled from the spec: one logical multi-segment frame as laid out
in consecutive slots. Every segment except the last carries
NS_MOREFRAG; the last (or only) segment must not have the flag. -/
def is_frame : List netmap_slot → Bool
  | [] => false
  | [s] => !has_morefrag s
  | s :: t :: rest => has_morefrag s && is_frame (t :: rest)

/-- Modelled from the spec: the kernel fills the netmap_if on NIOCREGIF:
the `ring_ofs` table gets the `ni_tx_rings + 1` transmit ring offsets
(the last entry being the host stack transmit ring) followed by the
`ni_rx_rings + 1` receive ring offsets (the last entry being the host
stack receive ring); userspace only reads the table afterwards. -/
def mk_netmap_if (name : String) (version ntx nrx : Nat)
    (txofs rxofs : Nat → Int) : netmap_if :=
  { ni_name := name,
    ni_version := version,
    ni_rx_rings := nrx,
    ni_tx_rings := ntx,
    ring_ofs := (List.range (ntx + 1)).map txofs ++
      (List.range (nrx + 1)).map rxofs }

/-- Per-interface configuration the kernel reports: ring counts and
descriptors per ring. -/
structure IfInfo where
  num_tx_rings : Nat
  num_rx_rings : Nat
  num_tx_slots : Nat
  num_rx_slots : Nat
deriving Repr, DecidableEq

/-- Control-plane state for one file descriptor: the interfaces known to
the kernel and the attachment registered on this descriptor, if any. -/
structure NetmapState where
  ifaces : List (String × IfInfo)
  registered : Option String
deriving Repr, DecidableEq

/-- Look up an interface by name. -/
def lookup_iface (st : NetmapState) (name : String) : Option IfInfo :=
  (st.ifaces.find? (fun p => p.1 == name)).map Prod.snd

/-- Modelled from the spec: NIOCGINFO takes an interface name and
returns the ring and slot counts; it is read only and mutates no
attachment state. -/
def NIOCGINFO (st : NetmapState) (name : String) :
    NetmapState × Except CtlError IfInfo :=
  match lookup_iface st name with
  | none => (st, Except.error CtlError.unknownAttachment)
  | some info => (st, Except.ok info)

/-- Result of a successful registration: negotiated counts and the
interface descriptor the kernel filled in. -/
structure RegResult where
  nr_tx_rings : Nat
  nr_rx_rings : Nat
  nr_tx_slots : Nat
  nr_rx_slots : Nat
  nifp : netmap_if
deriving Repr, DecidableEq

/-- Modelled from the spec: NIOCREGIF checks the request's `nr_version`
against NETMAP_API first and fails with the unsupported-version error
on mismatch; otherwise it proceeds with the protocol-state and name
checks and, on success, records the registration and fills in the
interface descriptor (ring placement within the shared region is chosen
by the allocator, abstracted by `txofs` / `rxofs`). -/
def NIOCREGIF (st : NetmapState) (req : nmreq) (txofs rxofs : Nat → Int) :
    NetmapState × Except CtlError RegResult :=
  if req.nr_version ≠ NETMAP_API then
    (st, Except.error CtlError.unsupportedVersion)
  else if st.registered.isSome then
    (st, Except.error CtlError.alreadyRegistered)
  else
    match lookup_iface st req.nr_name with
    | none => (st, Except.error CtlError.unknownAttachment)
    | some info =>
        ({ st with registered := some req.nr_name },
         Except.ok
           { nr_tx_rings := info.num_tx_rings,
             nr_rx_rings := info.num_rx_rings,
             nr_tx_slots := info.num_tx_slots,
             nr_rx_slots := info.num_rx_slots,
             nifp := mk_netmap_if req.nr_name NETMAP_API
               info.num_tx_rings info.num_rx_rings txofs rxofs })

/-! Concrete states used by the witnesses. -/

/-- A transmit kring about to sync: 8 slots, `cur` advanced to 5,
`nr_hwcur` 0, 6 slots free at the hardware. -/
def W1_kr : netmap_kring :=
  ⟨⟨0, 8, 3, 5, 0, 2048, 0, ⟨0, 0⟩, []⟩, 0, 6⟩

/-- The kring `txsync` produces from `W1_kr`. -/
def W1_out : netmap_kring :=
  ⟨⟨0, 8, 1, 5, 0, 2048, 0, ⟨0, 0⟩, []⟩, 5, 1⟩

/-- A kring presenting a regressing cursor: the advance from `nr_hwcur`
0 to `cur` 5 exceeds the 2 slots the hardware has free. -/
def W2_kr : netmap_kring :=
  ⟨⟨0, 8, 0, 5, 0, 2048, 0, ⟨0, 0⟩, []⟩, 0, 2⟩

/-- A receive kring about to sync with 2 of the 5 consumed slots still
reserved by the consumer. -/
def W3_kr : netmap_kring :=
  ⟨⟨0, 8, 5, 5, 2, 2048, 0, ⟨0, 0⟩, []⟩, 0, 5⟩

/-- The pair `rxsync` produces from `W3_kr`: the new kring and the
released slot indices. -/
def W3_out : netmap_kring × List Nat :=
  (⟨⟨0, 8, 0, 5, 2, 2048, 0, ⟨0, 0⟩, []⟩, 5, 0⟩, [0, 1, 2])

/-- A transmit kring whose sync drains the last pending slot. -/
def W4_kr : netmap_kring :=
  ⟨⟨0, 8, 0, 3, 0, 2048, 0, ⟨0, 0⟩, []⟩, 3, 7⟩

/-- A sample interface configuration. -/
def W_info : IfInfo := ⟨2, 2, 256, 256⟩

/-- A control-plane state knowing one interface, nothing registered. -/
def W_st : NetmapState := ⟨[("em0", W_info)], none⟩

/-- A registration request with a stale API version 3. -/
def W8_req : nmreq := ⟨"em0", 3, 0, 0, 0, 0, 0, 0, 0, 0, 0, 0⟩

/-- A slot with NS_MOREFRAG set. -/
def W7_more : netmap_slot := ⟨0, 100, NS_MOREFRAG⟩

/-- A slot with NS_MOREFRAG clear. -/
def W7_last : netmap_slot := ⟨1, 60, 0⟩

/-- C10: The `len` field of a slot is a 16-bit unsigned integer, so every
recorded per-slot payload length is at most 65535; a value of 65536 or
more can never be stored verbatim. -/
theorem slot_len_bounded (s : netmap_slot) (v : Nat) :
    (slot_set_len s v).len ≤ 65535 ∧
    (65536 ≤ v → (slot_set_len s v).len ≠ v) := by
  have hlt : v % 2 ^ 16 < 2 ^ 16 := Nat.mod_lt v (by norm_num)
  constructor
  · show v % 2 ^ 16 ≤ 65535
    omega
  · intro hv
    show v % 2 ^ 16 ≠ v
    omega

/-- Witness for C10 at the concrete oversize length 70000. -/
theorem slot_len_bounded_witness :
    (slot_set_len ⟨0, 0, 0⟩ 70000).len ≠ 70000 :=
  (slot_len_bounded ⟨0, 0, 0⟩ 70000).2 (by norm_num)

/-- C5: for every in-range slot index, the buffer address is the ring's
own base plus `buf_ofs` plus `index` times the per-buffer size, and the
resolution is position independent: remapping the region shifts every
resolved address by exactly the change of base, so the offset of a
buffer from the ring base does not depend on where the ring is mapped. -/
theorem netmap_buf_offset_addressing (base base2 : Int) (r : netmap_ring)
    (i : Nat) (_hi : i < r.num_slots) :
    NETMAP_BUF base r i = base + r.buf_ofs + (i : Int) * (r.nr_buf_size : Int) ∧
    NETMAP_BUF base2 r i - base2 = NETMAP_BUF base r i - base := by
  refine ⟨rfl, ?_⟩
  unfold NETMAP_BUF
  ring

/-- Witness for C5 on a concrete ring mapped at two different bases. -/
theorem netmap_buf_offset_addressing_witness :
    NETMAP_BUF 1000 ⟨4096, 4, 0, 0, 0, 2048, 0, ⟨0, 0⟩, []⟩ 2 =
      1000 + 4096 + 2 * 2048 ∧
    NETMAP_BUF 77777 ⟨4096, 4, 0, 0, 0, 2048, 0, ⟨0, 0⟩, []⟩ 2 - 77777 =
      NETMAP_BUF 1000 ⟨4096, 4, 0, 0, 0, 2048, 0, ⟨0, 0⟩, []⟩ 2 - 1000 := by
  have h := netmap_buf_offset_addressing 1000 77777
      ⟨4096, 4, 0, 0, 0, 2048, 0, ⟨0, 0⟩, []⟩ 2 (by norm_num)
  exact ⟨by rw [h.1]; norm_num, (netmap_buf_offset_addressing 77777 1000
      ⟨4096, 4, 0, 0, 0, 2048, 0, ⟨0, 0⟩, []⟩ 2 (by norm_num)).2⟩

/-- The canonical stored `nr_hwavail` is the sentinel exactly when the
free capacity covers the whole ring. -/
lemma canon_hwavail_eq_sentinel_iff (free n : Nat) :
    canon_hwavail free n = tx_idle_sentinel ↔ free = n := by
  unfold canon_hwavail tx_idle_sentinel
  split
  · simp_all
  · rename_i hne
    constructor
    · intro hc
      exfalso
      omega
    · intro hc
      exact absurd hc hne

/-- Reading back the free capacity from a canonically stored
`nr_hwavail`. -/
lemma tx_free_mk (r : netmap_ring) (c free : Nat) :
    tx_free ⟨r, c, canon_hwavail free r.num_slots⟩ = free := by
  by_cases hfe : free = r.num_slots
  · simp [tx_free, canon_hwavail, tx_idle_sentinel, hfe]
  · simp only [tx_free, canon_hwavail, tx_idle_sentinel, hfe, if_false]
    rw [if_neg (by omega)]
    omega

/-- Whatever the incoming `nr_hwavail`, the free capacity never exceeds
the ring size once `nr_hwavail` is below it. -/
lemma tx_free_le (kr : netmap_kring)
    (hwf : kr.nr_hwavail < (kr.ring.num_slots : Int)) :
    tx_free kr ≤ kr.ring.num_slots := by
  unfold tx_free
  split
  · exact Nat.le_refl _
  · omega

/-- C1: on every successful transmit sync the kernel copies the
consumer's `cur` into `nr_hwcur` (leaving `cur` itself and the ring
size untouched), decreases `nr_hwavail` by the presented advance
(`cur - nr_hwcur` modulo `num_slots`), and only then republishes the
consumer-visible `avail` as the recomputed free capacity, which is
never negative (it is a natural number) and never exceeds
`num_slots`. -/
theorem txsync_ok_reconciles (kr kr' : netmap_kring)
    (hwf : kr.nr_hwavail < (kr.ring.num_slots : Int))
    (hok : txsync kr = Except.ok kr') :
    kr'.nr_hwcur = kr.ring.cur ∧
    kr'.ring.cur = kr.ring.cur ∧
    kr'.ring.num_slots = kr.ring.num_slots ∧
    (0 ≤ kr.nr_hwavail →
      kr'.nr_hwavail = kr.nr_hwavail - (ring_delta kr : Int)) ∧
    kr'.ring.avail = tx_free kr' ∧
    tx_free kr' = tx_free kr - ring_delta kr ∧
    kr'.ring.avail ≤ kr'.ring.num_slots := by
  have hfle := tx_free_le kr hwf
  unfold txsync at hok
  split at hok
  · exact absurd hok (by simp)
  split at hok
  · exact absurd hok (by simp)
  rename_i h1 h2
  rw [not_le] at h1
  rw [not_lt] at h2
  injection hok with hok
  subst hok
  have hmk := tx_free_mk { kr.ring with avail := tx_free kr - ring_delta kr }
    kr.ring.cur (tx_free kr - ring_delta kr)
  refine ⟨rfl, rfl, rfl, ?_, ?_, ?_, ?_⟩
  · intro h0
    have hfv : tx_free kr = kr.nr_hwavail.toNat := by
      unfold tx_free
      rw [if_neg (by omega)]
    show canon_hwavail (tx_free kr - ring_delta kr) kr.ring.num_slots = _
    unfold canon_hwavail tx_idle_sentinel
    split
    · rename_i heq
      rw [hfv] at heq
      exfalso
      omega
    · rw [hfv] at h2 ⊢
      omega
  · exact hmk.symm
  · exact hmk
  · show tx_free kr - ring_delta kr ≤ kr.ring.num_slots
    omega

/-- Witness for C1: syncing `W1_kr` succeeds and reconciles as
claimed. -/
theorem txsync_ok_reconciles_witness :
    W1_out.nr_hwcur = W1_kr.ring.cur ∧
    W1_out.ring.cur = W1_kr.ring.cur ∧
    W1_out.ring.num_slots = W1_kr.ring.num_slots ∧
    (0 ≤ W1_kr.nr_hwavail →
      W1_out.nr_hwavail = W1_kr.nr_hwavail - (ring_delta W1_kr : Int)) ∧
    W1_out.ring.avail = tx_free W1_out ∧
    tx_free W1_out = tx_free W1_kr - ring_delta W1_kr ∧
    W1_out.ring.avail ≤ W1_out.ring.num_slots :=
  txsync_ok_reconciles W1_kr W1_out (by decide) (by rfl)

/-- C2: a sync presenting an out-of-range or regressing `cur` is
rejected with the invalid-cursor error and the kring (hence the shared
ring's `avail`, `cur` and the kernel's `nr_hwcur`) is returned exactly
as it was, with no slot released; more generally any failing sync
leaves the state untouched, so a retry after correcting the cursor is
safe. -/
theorem sync_invalid_cursor_rejected (kr : netmap_kring) :
    (kr.ring.num_slots ≤ kr.ring.cur ∨ tx_free kr < ring_delta kr →
      NIOCTXSYNC kr = (kr, some SyncError.invalidCursor)) ∧
    (kr.ring.num_slots ≤ kr.ring.cur ∨ kr.nr_hwavail < (ring_delta kr : Int) →
      NIOCRXSYNC kr = ((kr, []), some SyncError.invalidCursor)) ∧
    (∀ e, (NIOCTXSYNC kr).2 = some e → (NIOCTXSYNC kr).1 = kr) ∧
    (∀ e, (NIOCRXSYNC kr).2 = some e → (NIOCRXSYNC kr).1 = (kr, [])) := by
  refine ⟨?_, ?_, ?_, ?_⟩
  · intro h
    unfold NIOCTXSYNC txsync
    rcases h with h | h
    · rw [if_pos h]
    · by_cases h1 : kr.ring.num_slots ≤ kr.ring.cur
      · rw [if_pos h1]
      · rw [if_neg h1, if_pos h]
  · intro h
    unfold NIOCRXSYNC rxsync
    rcases h with h | h
    · rw [if_pos h]
    · by_cases h1 : kr.ring.num_slots ≤ kr.ring.cur
      · rw [if_pos h1]
      · rw [if_neg h1, if_pos h]
  · intro e
    unfold NIOCTXSYNC
    cases htx : txsync kr <;> simp
  · intro e
    unfold NIOCRXSYNC
    cases hrx : rxsync kr <;> simp

/-- Witness for C2: the regressing cursor of `W2_kr` is rejected on
both sync paths with the state unchanged. -/
theorem sync_invalid_cursor_rejected_witness :
    NIOCTXSYNC W2_kr = (W2_kr, some SyncError.invalidCursor) ∧
    NIOCRXSYNC W2_kr = ((W2_kr, []), some SyncError.invalidCursor) :=
  ⟨(sync_invalid_cursor_rejected W2_kr).1 (Or.inr (by decide)),
   (sync_invalid_cursor_rejected W2_kr).2.1 (Or.inr (by decide))⟩

/-- C4: `nr_hwavail` uses the sentinel -1, which is distinct from every
valid count (in particular from zero), and after either maintenance
step (completion interrupt or a successful transmit sync) the stored
value is the sentinel exactly when the transmit side has no pending
transmits. -/
theorem tx_hwavail_idle_sentinel :
    (∀ n : Nat, tx_idle_sentinel ≠ (n : Int)) ∧
    (∀ (kr : netmap_kring) (sent : Nat),
      (tx_intr kr sent).nr_hwavail = tx_idle_sentinel ↔
        tx_pending (tx_intr kr sent) = 0) ∧
    (∀ kr kr' : netmap_kring, kr.nr_hwavail < (kr.ring.num_slots : Int) →
      txsync kr = Except.ok kr' →
        (kr'.nr_hwavail = tx_idle_sentinel ↔ tx_pending kr' = 0)) := by
  refine ⟨?_, ?_, ?_⟩
  · intro n h
    rw [tx_idle_sentinel] at h
    omega
  · intro kr sent
    have hmk : tx_free (tx_intr kr sent) =
        min (tx_free kr + sent) kr.ring.num_slots :=
      tx_free_mk kr.ring kr.nr_hwcur (min (tx_free kr + sent) kr.ring.num_slots)
    have hns : (tx_intr kr sent).ring.num_slots = kr.ring.num_slots := rfl
    unfold tx_pending
    rw [hmk, hns]
    show canon_hwavail (min (tx_free kr + sent) kr.ring.num_slots)
      kr.ring.num_slots = tx_idle_sentinel ↔ _
    rw [canon_hwavail_eq_sentinel_iff]
    omega
  · intro kr kr' hwf hok
    have hfle := tx_free_le kr hwf
    unfold txsync at hok
    split at hok
    · exact absurd hok (by simp)
    split at hok
    · exact absurd hok (by simp)
    rename_i h1 h2
    rw [not_le] at h1
    rw [not_lt] at h2
    injection hok with hok
    subst hok
    have hmk := tx_free_mk { kr.ring with avail := tx_free kr - ring_delta kr }
      kr.ring.cur (tx_free kr - ring_delta kr)
    unfold tx_pending
    rw [hmk]
    show canon_hwavail (tx_free kr - ring_delta kr) kr.ring.num_slots =
      tx_idle_sentinel ↔ kr.ring.num_slots - (tx_free kr - ring_delta kr) = 0
    rw [canon_hwavail_eq_sentinel_iff]
    omega

/-- Witness for C4: draining the last pending slot of `W4_kr` by a
completion interrupt stores the sentinel, and the sentinel differs from
the count zero. -/
theorem tx_hwavail_idle_sentinel_witness :
    tx_idle_sentinel ≠ ((0 : Nat) : Int) ∧
    ((tx_intr W4_kr 1).nr_hwavail = tx_idle_sentinel ↔
      tx_pending (tx_intr W4_kr 1) = 0) :=
  ⟨tx_hwavail_idle_sentinel.1 0, tx_hwavail_idle_sentinel.2.1 W4_kr 1⟩

/-- Core circular-index fact: an index in the released span (the first
`delta - r` positions after `h`) never coincides with an index in the
reserved window (the last `r` positions before `c`), modulo `n`. -/
lemma release_window_disjoint (n h c r a b : Nat) (hn : 0 < n) (hh : h < n)
    (hc : c < n) (hr : r ≤ (c + n - h) % n) (ha : a < (c + n - h) % n - r)
    (hb : b < r) :
    (h + a) % n ≠ (c + n - 1 - b) % n := by
  intro heq
  set d := (c + n - h) % n with hd
  have hdn : d < n := Nat.mod_lt _ hn
  have hdm := Nat.div_add_mod (c + n - h) n
  have hq2 : (c + n - h) / n < 2 := by
    rw [Nat.div_lt_iff_lt_mul hn]
    omega
  have hqd : c + n - h = d ∨ c + n - h = n + d := by
    rcases Nat.le_one_iff_eq_zero_or_eq_one.mp (Nat.lt_succ_iff.mp hq2) with
        h0 | h0 <;>
      rw [h0] at hdm <;> omega
  have hkey : (c + n - 1 - b) % n = (h + (d - 1 - b)) % n := by
    rcases hqd with hq | hq
    · have he : c + n - 1 - b = h + (d - 1 - b) := by omega
      rw [he]
    · have he : c + n - 1 - b = h + (d - 1 - b) + n := by omega
      rw [he, Nat.add_mod_right]
  rw [hkey] at heq
  have hmod : a % n = (d - 1 - b) % n :=
    Nat.ModEq.add_left_cancel' h heq
  have ha2 : a % n = a := Nat.mod_eq_of_lt (by omega)
  have hb2 : (d - 1 - b) % n = d - 1 - b := Nat.mod_eq_of_lt (by omega)
  omega

/-- C3: a receive sync never hands a reserved slot back to the
hardware: every slot index released by `rxsync` lies outside the window
of `reserved` slots immediately before the consumer's `cur`, so those
buffers are not recycled until the consumer shrinks `reserved`. -/
theorem rxsync_never_recycles_reserved (kr : netmap_kring)
    (out : netmap_kring × List Nat)
    (hhw : kr.nr_hwcur < kr.ring.num_slots)
    (hres : kr.ring.reserved ≤ ring_delta kr)
    (hok : rxsync kr = Except.ok out) :
    ∀ i ∈ out.2, i ∉ rx_reserved_window kr := by
  unfold rxsync at hok
  split at hok
  · exact absurd hok (by simp)
  split at hok
  · exact absurd hok (by simp)
  rename_i h1 h2
  rw [not_le] at h1
  injection hok with hok
  have hrel : out.2 = rx_release_list kr := by rw [← hok]
  rw [hrel]
  intro i hi hmem
  unfold ring_delta at hres
  simp only [rx_release_list, ring_delta, List.mem_map, List.mem_range] at hi
  simp only [rx_reserved_window, List.mem_map, List.mem_range] at hmem
  obtain ⟨a, ha, hai⟩ := hi
  obtain ⟨b, hb, hbi⟩ := hmem
  exact release_window_disjoint kr.ring.num_slots kr.nr_hwcur kr.ring.cur
    kr.ring.reserved a b (by omega) hhw h1 hres ha hb (by rw [hai, hbi])

/-- Witness for C3: syncing the receive kring `W3_kr` releases slot 0,
which is outside its reserved window. -/
theorem rxsync_never_recycles_reserved_witness :
    (0 : Nat) ∉ rx_reserved_window W3_kr :=
  rxsync_never_recycles_reserved W3_kr W3_out (by decide) (by decide)
    (by rfl) 0 (by decide)

/-- C6: the interface descriptor the kernel fills at registration has a
ring-offset table of exactly `ni_tx_rings + 1` transmit entries (the
extra one being the host-stack transmit ring) followed immediately by
`ni_rx_rings + 1` receive entries (the extra one being the host-stack
receive ring). -/
theorem netmap_if_ring_ofs_layout (name : String) (ver ntx nrx : Nat)
    (txofs rxofs : Nat → Int) :
    (mk_netmap_if name ver ntx nrx txofs rxofs).ring_ofs.length =
      (ntx + 1) + (nrx + 1) ∧
    (mk_netmap_if name ver ntx nrx txofs rxofs).ring_ofs.take (ntx + 1) =
      (List.range (ntx + 1)).map txofs ∧
    (mk_netmap_if name ver ntx nrx txofs rxofs).ring_ofs.drop (ntx + 1) =
      (List.range (nrx + 1)).map rxofs := by
  unfold mk_netmap_if
  refine ⟨?_, ?_, ?_⟩
  · simp
  · have h : ((List.range (ntx + 1)).map txofs).length = ntx + 1 := by simp
    show ((List.range (ntx + 1)).map txofs ++
      (List.range (nrx + 1)).map rxofs).take (ntx + 1) = _
    nth_rewrite 1 [← h]
    rw [List.take_left]
  · have h : ((List.range (ntx + 1)).map txofs).length = ntx + 1 := by simp
    show ((List.range (ntx + 1)).map txofs ++
      (List.range (nrx + 1)).map rxofs).drop (ntx + 1) = _
    nth_rewrite 1 [← h]
    rw [List.drop_left]

/-- A chain ending in a clear slot is a frame exactly when every slot
of the run before it carries NS_MOREFRAG and the final slot does not. -/
lemma is_frame_append_iff (s : netmap_slot) :
    ∀ l : List netmap_slot, is_frame (l ++ [s]) = true ↔
      ((∀ t ∈ l, has_morefrag t = true) ∧ has_morefrag s = false) := by
  intro l
  induction l with
  | nil => simp [is_frame]
  | cons t l2 ih =>
      cases l2 with
      | nil => simp [is_frame]
      | cons u l3 =>
          simp only [List.cons_append] at ih ⊢
          rw [show is_frame (t :: u :: (l3 ++ [s])) =
            (has_morefrag t && is_frame (u :: (l3 ++ [s]))) from rfl]
          simp only [Bool.and_eq_true, ih, List.forall_mem_cons]
          tauto

/-- C7: a run of slots all carrying NS_MOREFRAG followed by exactly one
slot with the flag clear is exactly one logical frame: the chain parses
as a frame precisely when every non-final segment has the flag set and
the final (or only) segment has it clear, and such a frame contains
exactly one flag-clear slot. -/
theorem morefrag_chain_iff_one_frame (l : List netmap_slot) (s : netmap_slot) :
    (is_frame (l ++ [s]) = true ↔
      ((∀ t ∈ l, has_morefrag t = true) ∧ has_morefrag s = false)) ∧
    (is_frame (l ++ [s]) = true →
      (l ++ [s]).countP (fun t => ! has_morefrag t) = 1) := by
  refine ⟨is_frame_append_iff s l, ?_⟩
  intro hf
  obtain ⟨hall, hs⟩ := (is_frame_append_iff s l).mp hf
  rw [List.countP_append]
  have h0 : l.countP (fun t => ! has_morefrag t) = 0 := by
    rw [List.countP_eq_zero]
    intro t ht
    simp [hall t ht]
  have h1 : List.countP (fun t => ! has_morefrag t) [s] = 1 := by
    simp [List.countP, List.countP.go, hs]
  rw [h0, h1]

/-- Witness for C7: a two-segment chain (flag set, then clear) is one
frame with one clear slot. -/
theorem morefrag_chain_iff_one_frame_witness :
    is_frame ([W7_more] ++ [W7_last]) = true ∧
    ([W7_more] ++ [W7_last]).countP (fun t => ! has_morefrag t) = 1 := by
  have h := morefrag_chain_iff_one_frame [W7_more] W7_last
  have hf : is_frame ([W7_more] ++ [W7_last]) = true :=
    h.1.mpr (by decide)
  exact ⟨hf, h.2 hf⟩

/-- C8: NIOCREGIF rejects a request whose `nr_version` differs from
NETMAP_API with the unsupported-version error and leaves the state
unchanged; when the version matches, no unsupported-version error can
be produced. -/
theorem niocregif_version_gate (st : NetmapState) (req : nmreq)
    (txofs rxofs : Nat → Int) :
    (req.nr_version ≠ NETMAP_API →
      NIOCREGIF st req txofs rxofs =
        (st, Except.error CtlError.unsupportedVersion)) ∧
    (req.nr_version = NETMAP_API →
      (NIOCREGIF st req txofs rxofs).2 ≠
        Except.error CtlError.unsupportedVersion) := by
  constructor
  · intro h
    unfold NIOCREGIF
    rw [if_pos h]
  · intro h
    unfold NIOCREGIF
    rw [if_neg (by simp [h])]
    split
    · simp
    · cases hlk : lookup_iface st req.nr_name <;> simp [hlk]

/-- Witness for C8: the stale-version request `W8_req` is rejected with
unsupported-version and the state is untouched. -/
theorem niocregif_version_gate_witness :
    NIOCREGIF W_st W8_req (fun _ => 0) (fun _ => 0) =
      (W_st, Except.error CtlError.unsupportedVersion) :=
  (niocregif_version_gate W_st W8_req (fun _ => 0) (fun _ => 0)).1 (by decide)

/-- C9: NIOCGINFO is a pure read: it never changes the control-plane
state, and two consecutive queries of the same name return the same
ring and slot counts. -/
theorem niocginfo_pure (st : NetmapState) (name : String) :
    (NIOCGINFO st name).1 = st ∧
    (NIOCGINFO st name).2 = (NIOCGINFO (NIOCGINFO st name).1 name).2 := by
  unfold NIOCGINFO
  cases hlk : lookup_iface st name <;> simp [hlk]

end Netmap
